import Mathlib

/-!
Shallow embedding of the `qb` simple query builder from jvnonce/jv-go-utils
(`lib/qb/simple_query_builder.go`, with error sentinels from
`lib/errors/errors.go`), together with a small model of the injected
`database/sql` connection, and theorems about the builder's observable
behaviour.

Go strings are modelled as `List Char`; Go `any` bind values as the inductive
`Val`; fallible Go functions returning `error` become `Except`-valued Lean
functions.
-/

namespace JvQb

/-- Go strings, modelled as lists of characters. -/
abbrev Str := List Char

/-- Driver-native bind/result values (the Go code passes them as `any`). -/
inductive Val where
  | vInt (n : Int)
  | vStr (s : Str)
  | vNull
deriving DecidableEq, Repr

/-- One decimal digit character; callers always pass an argument below 10. -/
def digitChar (n : Nat) : Char :=
  if n = 0 then '0' else if n = 1 then '1' else if n = 2 then '2'
  else if n = 3 then '3' else if n = 4 then '4' else if n = 5 then '5'
  else if n = 6 then '6' else if n = 7 then '7' else if n = 8 then '8'
  else '9'

/-- Decimal digits of `n`, most significant first, with explicit fuel
(the fuel `n+1` always suffices since `n / 10 < n` for `n ≥ 10`). -/
def natDigitsAux : Nat → Nat → List Char
  | 0, _ => []
  | fuel + 1, n =>
    if n < 10 then [digitChar n]
    else natDigitsAux fuel (n / 10) ++ [digitChar (n % 10)]

/-- Decimal rendering of a natural number, as `strconv.Itoa` renders it. -/
def natDigits (n : Nat) : Str := natDigitsAux (n + 1) n

/-- The replacement text `$N` for a positional placeholder. -/
def dollarMark (n : Nat) : Str := '$' :: natDigits n

/-- Go `strings.Replace(s, "?", rep, 1)`: replace the first (leftmost)
occurrence of the one-character pattern `?` by `rep`. -/
def replaceOnce : Str → Str → Str
  | [], _ => []
  | c :: rest, rep => if c = '?' then rep ++ rest else c :: replaceOnce rest rep

/-- The shared rewrite loop of `Where`, `Having` and `SQL`: for each supplied
value in order, replace the first remaining `?` in the fragment by
`$<len(params)+1>` and append the value to the parameter list. -/
def rewriteArgs : Str → List Val → List Val → Str × List Val
  | frag, ps, [] => (frag, ps)
  | frag, ps, v :: vs =>
    rewriteArgs (replaceOnce frag (dollarMark (ps.length + 1))) (ps ++ [v]) vs

/-- Go `strings.Join(elems, sep)`. -/
def strJoin : List Str → Str → Str
  | [], _ => []
  | [x], _ => x
  | x :: y :: rest, sep => x ++ sep ++ strJoin (y :: rest) sep

/-- Boolean prefix test on character lists. -/
def leadsWith : Str → Str → Bool
  | [], _ => true
  | _ :: _, [] => false
  | c :: cs, d :: ds => c = d && leadsWith cs ds

/-- Boolean substring test: does `p` occur as a contiguous substring of `s`? -/
def hasSub : Str → Str → Bool
  | p, [] => leadsWith p []
  | p, c :: rest => leadsWith p (c :: rest) || hasSub p rest

/-- The builder state (`type builder struct` in the Go source).  The `db`
handle is not part of the state here; executor functions take it as an
explicit argument.  The Go field `where` is named `whereS` (`where` is a
Lean keyword). -/
structure Builder where
  tableName : Str
  tableAlias : Str
  action : Str
  columns : List Str
  params : List Val
  whereS : Str
  joins : List Str
  orderBy : List Str
  groupBy : Str
  having : Str
  limit : Int
  offset : Int
  sql : Str
  isManualSQL : Bool
deriving DecidableEq, Repr

def selectAction : Str := "SELECT".data
def updateAction : Str := "UPDATE".data
def insertAction : Str := "INSERT".data
def deleteAction : Str := "DELETE".data

/-- Go `New(db)`: zero-valued state with empty slices. -/
def newB : Builder :=
  { tableName := [], tableAlias := [], action := [], columns := [], params := []
    whereS := [], joins := [], orderBy := [], groupBy := [], having := []
    limit := 0, offset := 0, sql := [], isManualSQL := false }

namespace Builder

def Alias (b : Builder) (a : Str) : Builder := { b with tableAlias := a }

def Select (b : Builder) (table : Str) : Builder :=
  { b with action := selectAction, tableName := table }

def Insert (b : Builder) (table : Str) : Builder :=
  { b with action := insertAction, tableName := table }

def Update (b : Builder) (table : Str) : Builder :=
  { b with action := updateAction, tableName := table }

def Delete (b : Builder) (table : Str) : Builder :=
  { b with action := deleteAction, tableName := table }

/-- Go `Columns`: assigns (replaces) the whole column list. -/
def Columns (b : Builder) (columns : List Str) : Builder := { b with columns := columns }

/-- Go `Parameters`: assigns (replaces) the whole parameter list. -/
def Parameters (b : Builder) (params : List Val) : Builder := { b with params := params }

/-- Go `ColsWithParams`: iterates the supplied key/value pairs, appending each key
to `columns` and each value to `params` (Go iterates a map; the iteration
order is taken here as the order of the association list). -/
def ColsWithParams (b : Builder) (kvs : List (Str × Val)) : Builder :=
  kvs.foldl
    (fun acc kv =>
      { acc with columns := acc.columns ++ [kv.1], params := acc.params ++ [kv.2] })
    b

/-- Go `Where`: stores the fragment (overwriting any previous one) and runs the
placeholder rewrite loop over it. -/
def Where (b : Builder) (w : Str) (args : List Val) : Builder :=
  let p := rewriteArgs w b.params args
  { b with whereS := p.1, params := p.2 }

/-- Go `Having`: stores `"HAVING " + having` and runs the rewrite loop over the
stored text. -/
def Having (b : Builder) (h : Str) (args : List Val) : Builder :=
  let p := rewriteArgs ("HAVING ".data ++ h) b.params args
  { b with having := p.1, params := p.2 }

def Join (b : Builder) (join tbl aliasName cond : Str) : Builder :=
  { b with joins :=
      b.joins ++ [join ++ " ".data ++ tbl ++ " AS ".data ++ aliasName ++ " ON ".data ++ cond] }

def InnerJoin (b : Builder) (tbl aliasName cond : Str) : Builder :=
  { b with joins :=
      b.joins ++ ["INNER JOIN ".data ++ tbl ++ " AS ".data ++ aliasName ++ " ON ".data ++ cond] }

def LeftJoin (b : Builder) (tbl aliasName cond : Str) : Builder :=
  { b with joins :=
      b.joins ++ ["LEFT JOIN ".data ++ tbl ++ " AS ".data ++ aliasName ++ " ON ".data ++ cond] }

def RightJoin (b : Builder) (tbl aliasName cond : Str) : Builder :=
  { b with joins :=
      b.joins ++ ["RIGHT JOIN ".data ++ tbl ++ " AS ".data ++ aliasName ++ " ON ".data ++ cond] }

/-- Go `OrderBy`: appends one rendered `ORDER BY column direction` fragment. -/
def OrderBy (b : Builder) (column direction : Str) : Builder :=
  { b with orderBy := b.orderBy ++ ["ORDER BY ".data ++ column ++ " ".data ++ direction] }

/-- Go `GroupBy`: overwrites the rendered `GROUP BY …` fragment. -/
def GroupBy (b : Builder) (args : List Str) : Builder :=
  { b with groupBy := "GROUP BY ".data ++ strJoin args ", ".data }

def Limit (b : Builder) (limit : Int) : Builder := { b with limit := limit }

def Offset (b : Builder) (offset : Int) : Builder := { b with offset := offset }

/-- Go `SQL`: stores the raw statement, marks the builder manual, and runs the
rewrite loop over the stored text. -/
def SQL (b : Builder) (s : Str) (args : List Val) : Builder :=
  let p := rewriteArgs s b.params args
  { b with sql := p.1, isManualSQL := true, params := p.2 }

end Builder

/-- Error sentinels (`lib/errors/errors.go`) plus propagated driver errors. -/
inductive DbErr where
  | mk (code : Nat)
deriving DecidableEq, Repr

inductive QbErr where
  | badType
  | notFound
  | unknownAction
  | tooManyArgs
  | db (e : DbErr)
deriving DecidableEq, Repr

namespace Builder

/-- Go `buildSelect`.  Note: the accumulated `orderBy` fragments are never
rendered — the Go routine reads every other clause field but not `b.orderBy`. -/
def buildSelect (b : Builder) : Except QbErr Builder :=
  let s0 := selectAction ++ "\n".data ++
    (if b.columns.length > 0 then " ".data ++ strJoin b.columns ", ".data
     else if b.tableAlias = [] then "*".data else b.tableAlias ++ ".*".data)
  let s1 := s0 ++ "\nFROM ".data ++ b.tableName ++
    (if b.tableAlias = [] then [] else " AS ".data ++ b.tableAlias)
  let s2 := s1 ++ (b.joins.map (fun j => "\n".data ++ j ++ "\n".data)).flatten
  let s3 := s2 ++ (if b.whereS = [] then [] else "\nWHERE ".data ++ b.whereS)
  let s4 := s3 ++ (if b.groupBy = [] then [] else "\n".data ++ b.groupBy)
  let s5 := s4 ++ (if b.having = [] then [] else "\n".data ++ b.having)
  let s6 := s5 ++ (if b.offset > 0 then "\nOFFSET ".data ++ natDigits b.offset.toNat else [])
  let s7 := s6 ++ (if b.limit > 0 then "\nLIMIT ".data ++ natDigits b.limit.toNat else [])
  .ok { b with sql := s7 }

/-- Go `buildInsert`: `INSERT INTO table[ AS alias]`, parenthesised column list
(alias-qualified when an alias exists), `VALUES`, one `($1, …, $n)` tuple
sized to the parameter list. -/
def buildInsert (b : Builder) : Except QbErr Builder :=
  let cols := if b.tableAlias = [] then b.columns
    else b.columns.map (fun c => b.tableAlias ++ ".".data ++ c)
  let marks := (List.range b.params.length).map (fun i => '$' :: natDigits (i + 1))
  .ok { b with sql :=
    insertAction ++ " INTO ".data ++ b.tableName ++
      (if b.tableAlias = [] then [] else " AS ".data ++ b.tableAlias) ++ "\n".data ++
      "(".data ++ strJoin cols ", ".data ++ ")".data ++
      "\nVALUES\n".data ++ "(".data ++ strJoin marks ", ".data ++ ")".data }

/-- One `col=$N` (or `alias.col=$N`) SET pair of `buildUpdate`. -/
def setPair (a : Str) (i : Nat) (col : Str) : Str :=
  if a = [] then col ++ "=$".data ++ natDigits (i + 1)
  else a ++ ".".data ++ col ++ "=$".data ++ natDigits (i + 1)

/-- Go `buildUpdate`.  The Go routine writes the `UPDATE … SET` prefix into
`b.sql` before checking the lengths; on the error path that partial prefix is
never read again (every terminal call returns the error before touching the
statement), so the check is hoisted here and the error path carries no text. -/
def buildUpdate (b : Builder) : Except QbErr Builder :=
  if b.columns.length > b.params.length then .error .tooManyArgs
  else
    .ok { b with sql :=
      "UPDATE ".data ++ b.tableName ++
        (if b.tableAlias = [] then [] else " AS ".data ++ b.tableAlias) ++
        "\nSET\n".data ++
        (strJoin (b.columns.mapIdx (fun i col => setPair b.tableAlias i col)) ",\n".data) ++
        (if b.whereS = [] then [] else "\nWHERE ".data ++ b.whereS) }

/-- Go `buildDelete`. -/
def buildDelete (b : Builder) : Except QbErr Builder :=
  .ok { b with sql :=
    "DELETE FROM ".data ++ b.tableName ++
      (if b.whereS = [] then [] else "\nWHERE ".data ++ b.whereS) }

/-- Go `buildQuery`: dispatch on `action`; any other action (including the unset
default) is the unknown-action error. -/
def buildQuery (b : Builder) : Except QbErr Builder :=
  if b.action = selectAction then b.buildSelect
  else if b.action = updateAction then b.buildUpdate
  else if b.action = insertAction then b.buildInsert
  else if b.action = deleteAction then b.buildDelete
  else .error .unknownAction

end Builder

/-- The `if !b.isManualSQL { buildQuery }` prelude shared by all four
terminal calls. -/
def prepared (b : Builder) : Except QbErr Builder :=
  if b.isManualSQL then .ok b else b.buildQuery

/-- One decoded result row: column name to driver value, in column order
(the Go code fills a map iterating the column list). -/
abbrev Mrow := List (Str × Val)

/-- Outcome of one `rows.Scan` call: a driver error or the row's values. -/
abbrev RowRes := Except DbErr (List Val)

/-- A live result cursor as the driver hands it back: the outcome of
`rows.Columns()` and the sequence of rows behind `rows.Next()`/`rows.Scan`. -/
structure Cursor where
  colsRes : Except DbErr (List Str)
  rows : List RowRes

/-- Outcome of `db.Query`: a driver error, or a cursor. -/
inductive QueryOutcome where
  | fail (e : DbErr)
  | cursor (c : Cursor)

/-- One round trip recorded against the backing connection. -/
structure DbCall where
  stmt : Str
  args : List Val
deriving DecidableEq, Repr

/-- The injected `*sql.DB` handle, as an oracle for each operation used by
the builder: `Query`, `Exec`, and `QueryRow(...).Scan`. -/
structure DB where
  query : Str → List Val → QueryOutcome
  exec : Str → List Val → Except DbErr Unit
  queryRowScan : Str → List Val → Except DbErr Val

/-- What `ExecReturnID` hands back: `plain v` models returning the scanned
driver value itself, `pointerTo v` models returning the `*interface{}` cell
(`new(interface{})`) into which the value was scanned. -/
inductive RetVal where
  | plain (v : Val)
  | pointerTo (v : Val)
deriving DecidableEq, Repr

/-- Result of a fetch terminal call, with the round trips performed, whether
a cursor was obtained from `db.Query`, and whether `rows.Close()` ran before
returning. -/
structure FetchOut (α : Type) where
  result : Except QbErr α
  calls : List DbCall
  acquired : Bool
  closed : Bool

/-- Go `Row()`.  Mirrors the Go control flow: build (unless manual), `Query`,
`Columns()` — whose error return happens *before* `defer rows.Close()` is
registered, so the cursor stays open on that path — then first-row decode or
the not-found early return. -/
def RowRun (db : DB) (b : Builder) : FetchOut Mrow :=
  match prepared b with
  | .error e => ⟨.error e, [], false, false⟩
  | .ok b1 =>
    match db.query b1.sql b1.params with
    | .fail e => ⟨.error (.db e), [⟨b1.sql, b1.params⟩], false, false⟩
    | .cursor c =>
      match c.colsRes with
      | .error e => ⟨.error (.db e), [⟨b1.sql, b1.params⟩], true, false⟩
      | .ok cols =>
        match c.rows with
        | [] => ⟨.error .notFound, [⟨b1.sql, b1.params⟩], true, true⟩
        | .error e :: _ => ⟨.error (.db e), [⟨b1.sql, b1.params⟩], true, true⟩
        | .ok vals :: _ => ⟨.ok (cols.zip vals), [⟨b1.sql, b1.params⟩], true, true⟩

/-- The `for rows.Next()` accumulation loop of `Rows()`: decode every row
into a map, stopping with the driver error on the first failed scan. -/
def scanLoop (cols : List Str) : List RowRes → List Mrow → Except QbErr (List Mrow)
  | [], acc => .ok acc
  | .error e :: _, _ => .error (.db e)
  | .ok vals :: rest, acc => scanLoop cols rest (acc ++ [cols.zip vals])

/-- Go `Rows()`.  Same prelude as `Row()`, including the late `defer` that skips
the close on a `Columns()` failure; zero rows fold to the empty sequence. -/
def RowsRun (db : DB) (b : Builder) : FetchOut (List Mrow) :=
  match prepared b with
  | .error e => ⟨.error e, [], false, false⟩
  | .ok b1 =>
    match db.query b1.sql b1.params with
    | .fail e => ⟨.error (.db e), [⟨b1.sql, b1.params⟩], false, false⟩
    | .cursor c =>
      match c.colsRes with
      | .error e => ⟨.error (.db e), [⟨b1.sql, b1.params⟩], true, false⟩
      | .ok cols => ⟨scanLoop cols c.rows [], [⟨b1.sql, b1.params⟩], true, true⟩

/-- Go `ExecReturnID(colID)`: build (unless manual), append `\nRETURNING colID`,
run `QueryRow(...).Scan(lastInsertedID)` where `lastInsertedID` is a fresh
`*interface{}` cell, and return that cell — hence `RetVal.pointerTo`. -/
def ExecReturnIDRun (db : DB) (b : Builder) (colID : Str) :
    Except QbErr RetVal × List DbCall :=
  match prepared b with
  | .error e => (.error e, [])
  | .ok b1 =>
    let s := b1.sql ++ "\nRETURNING ".data ++ colID
    match db.queryRowScan s b1.params with
    | .error e => (.error (.db e), [⟨s, b1.params⟩])
    | .ok v => (.ok (.pointerTo v), [⟨s, b1.params⟩])

/-- Go `Exec()`: build (unless manual), run `db.Exec`, discard the result. -/
def ExecRun (db : DB) (b : Builder) : Except QbErr Unit × List DbCall :=
  match prepared b with
  | .error e => (.error e, [])
  | .ok b1 =>
    match db.exec b1.sql b1.params with
    | .error e => (.error (.db e), [⟨b1.sql, b1.params⟩])
    | .ok _ => (.ok (), [⟨b1.sql, b1.params⟩])

/-! ### Spec-side description of the placeholder rewrite

`specReplaceFrom s c` renders the spec's words: every `?` marker of `s` is
replaced left-to-right by `$(c+1)`, `$(c+2)`, …; `countQ s` counts the
markers. -/

/-- Number of literal `?` markers in a fragment. -/
def countQ (s : Str) : Nat := s.count '?'

/-- Replace the `?` markers of `s` left-to-right by `$(n+1)`, `$(n+2)`, …
(the spec's description of the rewrite, independent of the loop above). -/
def specReplaceFrom : Str → Nat → Str
  | [], _ => []
  | c :: rest, n =>
    if c = '?' then dollarMark (n + 1) ++ specReplaceFrom rest (n + 1)
    else c :: specReplaceFrom rest n

theorem digitChar_ne_mark (n : Nat) : digitChar n ≠ '?' := by
  unfold digitChar
  repeat' split
  all_goals decide

theorem natDigitsAux_no_mark : ∀ fuel n, '?' ∉ natDigitsAux fuel n := by
  intro fuel
  induction fuel with
  | zero => intro n h; simp [natDigitsAux] at h
  | succ f ih =>
    intro n h
    rw [natDigitsAux] at h
    split at h
    · simp at h
      exact digitChar_ne_mark n h.symm
    · rcases List.mem_append.mp h with h1 | h1
      · exact ih _ h1
      · simp at h1
        exact digitChar_ne_mark _ h1.symm

theorem dollarMark_no_mark (n : Nat) : '?' ∉ dollarMark n := by
  intro h
  rcases List.mem_cons.mp h with h1 | h1
  · exact absurd h1 (by decide)
  · exact natDigitsAux_no_mark _ _ h1

theorem replaceOnce_no_mark_pre (pre suf rep : Str) (h : '?' ∉ pre) :
    replaceOnce (pre ++ suf) rep = pre ++ replaceOnce suf rep := by
  induction pre with
  | nil => rfl
  | cons c cs ih =>
    have hc : c ≠ '?' := fun hc => h (hc ▸ List.mem_cons_self c cs)
    have hcs : '?' ∉ cs := fun hm => h (List.mem_cons_of_mem c hm)
    simp [replaceOnce, hc, ih hcs]

theorem replaceOnce_mark_cons (suf rep : Str) :
    replaceOnce ('?' :: suf) rep = rep ++ suf := by
  simp [replaceOnce]

theorem specReplaceFrom_no_mark_pre (pre suf : Str) (n : Nat) (h : '?' ∉ pre) :
    specReplaceFrom (pre ++ suf) n = pre ++ specReplaceFrom suf n := by
  induction pre with
  | nil => rfl
  | cons c cs ih =>
    have hc : c ≠ '?' := fun hc => h (hc ▸ List.mem_cons_self c cs)
    have hcs : '?' ∉ cs := fun hm => h (List.mem_cons_of_mem c hm)
    simp [specReplaceFrom, hc, ih hcs]

theorem countQ_zero_of_no_mark {s : Str} (h : '?' ∉ s) : countQ s = 0 :=
  List.count_eq_zero.mpr h

theorem specReplaceFrom_of_countQ_zero {s : Str} (h : countQ s = 0) (n : Nat) :
    specReplaceFrom s n = s := by
  induction s generalizing n with
  | nil => rfl
  | cons c cs ih =>
    have hall := List.count_eq_zero.mp h
    have hc : c ≠ '?' := fun hc => hall (hc ▸ List.mem_cons_self c cs)
    have hcs : countQ cs = 0 :=
      List.count_eq_zero.mpr fun hm => hall (List.mem_cons_of_mem c hm)
    simp [specReplaceFrom, hc, ih hcs]

theorem exists_mark_split (s : Str) (h : 0 < countQ s) :
    ∃ pre suf, s = pre ++ '?' :: suf ∧ '?' ∉ pre := by
  induction s with
  | nil => simp [countQ] at h
  | cons c cs ih =>
    by_cases hc : c = '?'
    · exact ⟨[], cs, by simp [hc], by simp⟩
    · have hcs : 0 < countQ cs := by
        have heq : countQ (c :: cs) = countQ cs := by
          simp [countQ, List.count_cons, hc]
        rwa [heq] at h
      obtain ⟨pre, suf, heq, hpre⟩ := ih hcs
      exact ⟨c :: pre, suf, by simp [heq], by
        intro hm
        rcases List.mem_cons.mp hm with h1 | h1
        · exact hc h1.symm
        · exact hpre h1⟩

/-- The rewrite loop realises the spec-side replacement: when the fragment
carries exactly one `?` marker per supplied value, the loop yields the
fragment with the markers replaced by `$(c+1)…$(c+k)` (with `c` the incoming
parameter count) and appends the values, in order, to the parameter list. -/
theorem rewriteArgs_spec :
    ∀ (args : List Val) (frag : Str) (ps : List Val),
      countQ frag = args.length →
      rewriteArgs frag ps args = (specReplaceFrom frag ps.length, ps ++ args) := by
  intro args
  induction args with
  | nil =>
    intro frag ps h
    simp [rewriteArgs, specReplaceFrom_of_countQ_zero h]
  | cons v vs ih =>
    intro frag ps h
    obtain ⟨pre, suf, hsplit, hpre⟩ :=
      exists_mark_split frag (by rw [h]; exact Nat.succ_pos _)
    subst hsplit
    have hpre0 : countQ pre = 0 := countQ_zero_of_no_mark hpre
    have hcsuf : countQ suf = vs.length := by
      have h2 := h
      simp [countQ, List.count_append, List.count_cons] at h2
      simp only [countQ, List.count_append] at hpre0
      simp only [countQ]
      omega
    rw [rewriteArgs]
    rw [replaceOnce_no_mark_pre pre ('?' :: suf) _ hpre, replaceOnce_mark_cons]
    have hfrag2 : countQ (pre ++ (dollarMark (ps.length + 1) ++ suf)) = vs.length := by
      have hd : countQ (dollarMark (ps.length + 1)) = 0 :=
        countQ_zero_of_no_mark (dollarMark_no_mark _)
      simp only [countQ, List.count_append] at hd hpre0 hcsuf ⊢
      omega
    rw [ih _ _ hfrag2]
    refine Prod.ext ?_ ?_
    · show specReplaceFrom (pre ++ (dollarMark (ps.length + 1) ++ suf)) (ps ++ [v]).length
        = specReplaceFrom (pre ++ '?' :: suf) ps.length
      rw [specReplaceFrom_no_mark_pre _ _ _ hpre,
        specReplaceFrom_no_mark_pre _ _ _ (dollarMark_no_mark _),
        specReplaceFrom_no_mark_pre _ _ _ hpre]
      simp [specReplaceFrom, List.length_append]
    · show ps ++ [v] ++ vs = ps ++ v :: vs
      simp

/-! ### Claim theorems -/

/-- C2: for every fragment `F` with exactly `k` literal `?` markers and every
`Where`/`Having`/`SQL` call supplying `F` with exactly `k` values, when the
builder holds `c` parameters beforehand, the stored fragment is `F` with the
markers replaced left-to-right by `$(c+1)…$(c+k)` (for `Having`, behind the
prepended `HAVING ` keyword, which carries no markers) and the `k` values are
appended to the parameter list in order; with an empty value list the
fragment is stored completely unrewritten. -/
theorem rewrite_stored_fragments (b : Builder) (F : Str) (args : List Val)
    (h : countQ F = args.length) :
    ((b.Where F args).whereS = specReplaceFrom F b.params.length
      ∧ (b.Where F args).params = b.params ++ args)
    ∧ ((b.SQL F args).sql = specReplaceFrom F b.params.length
      ∧ (b.SQL F args).params = b.params ++ args)
    ∧ ((b.Having F args).having = "HAVING ".data ++ specReplaceFrom F b.params.length
      ∧ (b.Having F args).params = b.params ++ args)
    ∧ (∀ G : Str, (b.Where G []).whereS = G ∧ (b.SQL G []).sql = G
        ∧ (b.Having G []).having = "HAVING ".data ++ G) := by
  have hH : '?' ∉ "HAVING ".data := by decide
  have hHF : countQ ("HAVING ".data ++ F) = args.length := by
    simp only [countQ, List.count_append] at *
    rw [List.count_eq_zero.mpr hH]
    omega
  refine ⟨?_, ?_, ?_, ?_⟩
  · simp [Builder.Where, rewriteArgs_spec args F b.params h]
  · simp [Builder.SQL, rewriteArgs_spec args F b.params h]
  · have h1 := rewriteArgs_spec args ("HAVING ".data ++ F) b.params hHF
    have h2 : specReplaceFrom ("HAVING ".data ++ F) b.params.length
        = "HAVING ".data ++ specReplaceFrom F b.params.length :=
      specReplaceFrom_no_mark_pre _ _ _ hH
    rw [h2] at h1
    constructor
    · show (rewriteArgs ("HAVING ".data ++ F) b.params args).1 = _
      rw [h1]
    · show (rewriteArgs ("HAVING ".data ++ F) b.params args).2 = _
      rw [h1]
  · intro G
    exact ⟨rfl, rfl, rfl⟩

/-- Witness for C2 at a concrete fragment with two markers, a builder already
holding one parameter (so the markers become `$2` and `$3`). -/
theorem rewrite_stored_fragments_holds :
    countQ "a = ? OR b = ?".data = ([Val.vInt 5, Val.vInt 6] : List Val).length
    ∧ (((newB.Parameters [Val.vInt 1]).Where "a = ? OR b = ?".data
          [Val.vInt 5, Val.vInt 6]).whereS
        = specReplaceFrom "a = ? OR b = ?".data
            (newB.Parameters [Val.vInt 1]).params.length
      ∧ ((newB.Parameters [Val.vInt 1]).Where "a = ? OR b = ?".data
          [Val.vInt 5, Val.vInt 6]).params
        = (newB.Parameters [Val.vInt 1]).params ++ [Val.vInt 5, Val.vInt 6]) :=
  ⟨by decide,
   (rewrite_stored_fragments (newB.Parameters [Val.vInt 1]) "a = ? OR b = ?".data
     [Val.vInt 5, Val.vInt 6] (by decide)).1⟩

/-- C9: a second `GroupBy` call overwrites the stored fragment; the result is
exactly `GROUP BY ` followed by the comma-joined second argument list,
independent of the first call (and equal to what a fresh builder stores). -/
theorem groupBy_overwrites (b : Builder) (xs ys : List Str) :
    ((b.GroupBy xs).GroupBy ys).groupBy = "GROUP BY ".data ++ strJoin ys ", ".data
    ∧ ((b.GroupBy xs).GroupBy ys).groupBy = (newB.GroupBy ys).groupBy :=
  ⟨rfl, rfl⟩

/-- Go `ColsWithParams` appends the supplied keys to `columns` and the supplied
values to `params`, pairwise, in iteration order. -/
theorem colsWithParams_appends :
    ∀ (kvs : List (Str × Val)) (b : Builder),
      (b.ColsWithParams kvs).columns = b.columns ++ kvs.map Prod.fst
      ∧ (b.ColsWithParams kvs).params = b.params ++ kvs.map Prod.snd := by
  intro kvs
  induction kvs with
  | nil => intro b; simp [Builder.ColsWithParams]
  | cons kv rest ih =>
    intro b
    have hstep := ih { b with columns := b.columns ++ [kv.1], params := b.params ++ [kv.2] }
    simp only [Builder.ColsWithParams, List.foldl_cons] at hstep ⊢
    simpa using hstep

/-- The concrete stale-placeholder exhibit for C10: `Where` first numbers its
two markers `$1`,`$2` and appends two bind values; the later `Parameters`
call then replaces the whole list with a single value, leaving `$2` in the
stored filter with no corresponding position. -/
def staleB : Builder :=
  (newB.Where "a=? AND b=?".data [Val.vInt 1, Val.vInt 2]).Parameters [Val.vInt 9]

/-- C10: `Parameters` and `Columns` replace the whole stored list with their
arguments (discarding values accumulated earlier, including bind values from
placeholder rewriting), while `ColsWithParams` appends pairwise to both
lists; consequently `Where` before `Parameters` leaves placeholder numbers in
the filter that no longer correspond to the final parameter list. -/
theorem assign_vs_append_semantics :
    (∀ (b : Builder) (ps : List Val), (b.Parameters ps).params = ps)
    ∧ (∀ (b : Builder) (cs : List Str), (b.Columns cs).columns = cs)
    ∧ (∀ (b : Builder) (kvs : List (Str × Val)),
        (b.ColsWithParams kvs).columns = b.columns ++ kvs.map Prod.fst
        ∧ (b.ColsWithParams kvs).params = b.params ++ kvs.map Prod.snd)
    ∧ (staleB.whereS = "a=$1 AND b=$2".data ∧ staleB.params = [Val.vInt 9]
        ∧ staleB.params.length = 1) := by
  refine ⟨fun b ps => rfl, fun b cs => rfl, fun b kvs => colsWithParams_appends kvs b, ?_⟩
  refine ⟨by decide, by decide, by decide⟩

/-- The chained configuration of C1:
`Select("users").Alias("u").Columns("u.id","u.name").Where("u.age > ?", 18)
.OrderBy("u.name","ASC").Limit(10)`. -/
def c1chain : Builder :=
  ((((newB.Select "users".data).Alias "u".data).Columns
      ["u.id".data, "u.name".data]).Where "u.age > ?".data [Val.vInt 18]
    |>.OrderBy "u.name".data "ASC".data |>.Limit 10)

/-- The statement `buildSelect` actually assembles for `c1chain`. -/
def c1sql : Str := "SELECT\n u.id, u.name\nFROM users AS u\nWHERE u.age > $1\nLIMIT 10".data

/-- C1 (refuting the ORDER BY conjunct): the chain assembles to a SELECT of
the two qualified columns from `users AS u` with filter `u.age > $1`, bound
parameter 18, and `LIMIT 10` — but although the `ORDER BY u.name ASC`
fragment is accumulated in the builder state, `buildSelect` never renders it:
the assembled text contains no `ORDER BY` at all. -/
theorem select_drops_orderBy :
    c1chain.buildQuery = .ok { c1chain with sql := c1sql }
    ∧ c1chain.params = [Val.vInt 18]
    ∧ c1chain.whereS = "u.age > $1".data
    ∧ c1chain.orderBy = ["ORDER BY u.name ASC".data]
    ∧ hasSub "u.id, u.name".data c1sql = true
    ∧ hasSub "FROM users AS u".data c1sql = true
    ∧ hasSub "WHERE u.age > $1".data c1sql = true
    ∧ hasSub "LIMIT 10".data c1sql = true
    ∧ hasSub "ORDER BY".data c1sql = false := by
  refine ⟨rfl, by decide, by decide, by decide, ?_, ?_, ?_, ?_, ?_⟩
  all_goals decide

/-- C3/C8 share this: a dummy connection; the theorems show it is never
consulted (the recorded call list stays empty). -/
def dummyDB : DB :=
  { query := fun _ _ => .fail ⟨0⟩
    exec := fun _ _ => .error ⟨0⟩
    queryRowScan := fun _ _ => .error ⟨0⟩ }

/-- C3: an Update whose column list is longer than its parameter list fails
assembly with the too-many-arguments error; every terminal call returns that
error and performs no round trip to the connection (the recorded call list is
empty — no partial statement is ever executed). -/
theorem update_too_many_args (b : Builder) (db : DB) (colID : Str)
    (ha : b.action = updateAction) (hm : b.isManualSQL = false)
    (hlen : b.params.length < b.columns.length) :
    b.buildQuery = .error .tooManyArgs
    ∧ ExecRun db b = (.error .tooManyArgs, [])
    ∧ (RowRun db b).result = .error .tooManyArgs ∧ (RowRun db b).calls = []
    ∧ (RowsRun db b).result = .error .tooManyArgs ∧ (RowsRun db b).calls = []
    ∧ ExecReturnIDRun db b colID = (.error .tooManyArgs, []) := by
  have hbq : b.buildQuery = .error .tooManyArgs := by
    rw [Builder.buildQuery, ha]
    rw [if_neg (by decide : ¬updateAction = selectAction), if_pos rfl]
    rw [Builder.buildUpdate, if_pos hlen]
  have hp : prepared b = .error .tooManyArgs := by
    rw [prepared, hm]
    simpa using hbq
  refine ⟨hbq, ?_, ?_, ?_, ?_, ?_, ?_⟩
  all_goals simp [ExecRun, RowRun, RowsRun, ExecReturnIDRun, hp]

/-- Witness for C3: `Update("t").Columns("a")` with no parameters. -/
theorem update_too_many_args_holds :
    (((newB.Update "t".data).Columns ["a".data]).action = updateAction
      ∧ ((newB.Update "t".data).Columns ["a".data]).isManualSQL = false
      ∧ ((newB.Update "t".data).Columns ["a".data]).params.length
          < ((newB.Update "t".data).Columns ["a".data]).columns.length)
    ∧ ExecRun dummyDB ((newB.Update "t".data).Columns ["a".data])
        = (.error .tooManyArgs, []) :=
  ⟨⟨rfl, rfl, by decide⟩,
   (update_too_many_args ((newB.Update "t".data).Columns ["a".data]) dummyDB []
     rfl rfl (by decide)).2.1⟩

/-- C8: with no raw statement and an action matching none of the four
(including the unset default), assembly fails with the unknown-action error,
every terminal call returns it, and no round trip occurs. -/
theorem unknown_action_aborts (b : Builder) (db : DB) (colID : Str)
    (hm : b.isManualSQL = false)
    (h1 : b.action ≠ selectAction) (h2 : b.action ≠ updateAction)
    (h3 : b.action ≠ insertAction) (h4 : b.action ≠ deleteAction) :
    b.buildQuery = .error .unknownAction
    ∧ ExecRun db b = (.error .unknownAction, [])
    ∧ (RowRun db b).result = .error .unknownAction ∧ (RowRun db b).calls = []
    ∧ (RowsRun db b).result = .error .unknownAction ∧ (RowsRun db b).calls = []
    ∧ ExecReturnIDRun db b colID = (.error .unknownAction, []) := by
  have hbq : b.buildQuery = .error .unknownAction := by
    rw [Builder.buildQuery, if_neg h1, if_neg h2, if_neg h3, if_neg h4]
  have hp : prepared b = .error .unknownAction := by
    rw [prepared, hm]
    simpa using hbq
  refine ⟨hbq, ?_, ?_, ?_, ?_, ?_, ?_⟩
  all_goals simp [ExecRun, RowRun, RowsRun, ExecReturnIDRun, hp]

/-- Witness for C8: the freshly constructed builder (unset action). -/
theorem unknown_action_aborts_holds :
    (newB.isManualSQL = false ∧ newB.action ≠ selectAction
      ∧ newB.action ≠ updateAction ∧ newB.action ≠ insertAction
      ∧ newB.action ≠ deleteAction)
    ∧ (RowRun dummyDB newB).result = .error .unknownAction
    ∧ ExecRun dummyDB newB = (.error .unknownAction, []) :=
  ⟨⟨rfl, by decide, by decide, by decide, by decide⟩,
   (unknown_action_aborts newB dummyDB [] rfl (by decide) (by decide) (by decide)
     (by decide)).2.2.1,
   (unknown_action_aborts newB dummyDB [] rfl (by decide) (by decide) (by decide)
     (by decide)).2.1⟩

/-- The insert chain of C4:
`Insert("users").Columns("name","email").Parameters("jv","jv@example.com")`. -/
def insChain : Builder :=
  ((newB.Insert "users".data).Columns ["name".data, "email".data]).Parameters
    [Val.vStr "jv".data, Val.vStr "jv@example.com".data]

/-- A connection whose `QueryRow(...).Scan` scans the id value 42. -/
def dbScan42 : DB :=
  { query := fun _ _ => .fail ⟨0⟩
    exec := fun _ _ => .error ⟨0⟩
    queryRowScan := fun _ _ => .ok (Val.vInt 42) }

/-- C4 (refuting the returns-value-verbatim conjunct): `ExecReturnID("id")`
on the insert chain executes exactly the assembled INSERT with values tuple
`($1, $2)` plus trailing `RETURNING id` and the two bind values — but it
returns the `*interface{}` cell the value was scanned into
(`RetVal.pointerTo`), not the scanned driver value itself
(`RetVal.plain`). -/
theorem execReturnID_returns_pointer :
    (ExecReturnIDRun dbScan42 insChain "id".data).1
        = .ok (.pointerTo (Val.vInt 42))
    ∧ RetVal.pointerTo (Val.vInt 42) ≠ RetVal.plain (Val.vInt 42)
    ∧ (ExecReturnIDRun dbScan42 insChain "id".data).2
        = [⟨"INSERT INTO users\n(name, email)\nVALUES\n($1, $2)\nRETURNING id".data,
           [Val.vStr "jv".data, Val.vStr "jv@example.com".data]⟩] :=
  ⟨rfl, by decide, by decide⟩

/-- The plain `SELECT * FROM t` builder used in the executor claims. -/
def selB : Builder := newB.Select "t".data

/-- What `buildSelect` assembles for `selB`. -/
def selBuilt : Builder := { selB with sql := "SELECT\n*\nFROM t".data }

def zeroCursor : Cursor := ⟨.ok ["id".data], []⟩
def oneCursor : Cursor := ⟨.ok ["id".data], [.ok [Val.vInt 7]]⟩
def twoCursor : Cursor := ⟨.ok ["id".data], [.ok [Val.vInt 7], .ok [Val.vInt 8]]⟩
def scanFailCursor : Cursor := ⟨.ok ["id".data], [.error ⟨4⟩]⟩
def colsFailCursor : Cursor := ⟨.error ⟨3⟩, []⟩

/-- A connection whose `Query` always hands back the given cursor. -/
def dbCursor (c : Cursor) : DB :=
  { query := fun _ _ => .cursor c
    exec := fun _ _ => .error ⟨0⟩
    queryRowScan := fun _ _ => .error ⟨0⟩ }

/-- C5 (refuting the columns-failure conjunct): when `rows.Columns()` fails,
both `Row` and `Rows` return with the cursor still open — the Go code
registers `defer rows.Close()` only after the `Columns()` error check — while
on the success, zero-row/not-found, and per-row decode failure paths the
cursor is closed before returning. -/
theorem cursor_left_open_on_columns_failure :
    ((RowRun (dbCursor colsFailCursor) selB).acquired = true
      ∧ (RowRun (dbCursor colsFailCursor) selB).closed = false)
    ∧ ((RowsRun (dbCursor colsFailCursor) selB).acquired = true
      ∧ (RowsRun (dbCursor colsFailCursor) selB).closed = false)
    ∧ (RowRun (dbCursor zeroCursor) selB).closed = true
    ∧ (RowRun (dbCursor scanFailCursor) selB).closed = true
    ∧ (RowRun (dbCursor oneCursor) selB).closed = true
    ∧ (RowsRun (dbCursor zeroCursor) selB).closed = true
    ∧ (RowsRun (dbCursor scanFailCursor) selB).closed = true
    ∧ (RowsRun (dbCursor oneCursor) selB).closed = true := by
  decide

/-- C6: with no raw statement, once the query yields a cursor whose column
metadata is available, a zero-row result makes `Row` fail with the not-found
error, and a result with at least one row (whose decode succeeds) makes `Row`
return the map keyed by exactly the result's column names with the values of
the first returned row only. -/
theorem row_not_found_or_first_row (b : Builder) (db : DB) (b1 : Builder)
    (c : Cursor) (cols : List Str)
    (hm : b.isManualSQL = false) (hb : b.buildQuery = .ok b1)
    (hq : db.query b1.sql b1.params = .cursor c) (hc : c.colsRes = .ok cols) :
    (c.rows = [] → (RowRun db b).result = .error .notFound)
    ∧ (∀ (vals : List Val) (rest : List RowRes),
        c.rows = .ok vals :: rest → vals.length = cols.length →
        (RowRun db b).result = .ok (cols.zip vals)
        ∧ (cols.zip vals).map Prod.fst = cols) := by
  have hp : prepared b = .ok b1 := by
    rw [prepared, hm]
    simpa using hb
  constructor
  · intro hrows
    simp [RowRun, hp, hq, hc, hrows]
  · intro vals rest hrows hlen
    refine ⟨?_, List.map_fst_zip cols vals hlen.ge⟩
    simp [RowRun, hp, hq, hc, hrows]

/-- Witness for C6: `SELECT * FROM t` against a zero-row cursor (not found)
and against a one-row cursor (the decoded first-row map). -/
theorem row_not_found_or_first_row_holds :
    (selB.isManualSQL = false ∧ selB.buildQuery = .ok selBuilt
      ∧ (dbCursor zeroCursor).query selBuilt.sql selBuilt.params = .cursor zeroCursor
      ∧ zeroCursor.colsRes = .ok ["id".data] ∧ zeroCursor.rows = [])
    ∧ (RowRun (dbCursor zeroCursor) selB).result = .error .notFound
    ∧ (RowRun (dbCursor oneCursor) selB).result = .ok [("id".data, Val.vInt 7)] :=
  ⟨⟨rfl, rfl, rfl, rfl, rfl⟩,
   (row_not_found_or_first_row selB (dbCursor zeroCursor) selBuilt zeroCursor
     ["id".data] rfl rfl rfl rfl).1 rfl,
   ((row_not_found_or_first_row selB (dbCursor oneCursor) selBuilt oneCursor
     ["id".data] rfl rfl rfl rfl).2 [Val.vInt 7] [] rfl (by decide)).1⟩

/-- The `Rows` accumulation loop decodes every successfully scanned row, in
order, appending to the accumulator. -/
theorem scanLoop_all_ok (cols : List Str) :
    ∀ (valss : List (List Val)) (acc : List Mrow),
      scanLoop cols (valss.map Except.ok) acc
        = .ok (acc ++ valss.map fun vs => cols.zip vs) := by
  intro valss
  induction valss with
  | nil => intro acc; simp [scanLoop]
  | cons vs rest ih =>
    intro acc
    simp only [List.map_cons, scanLoop, ih]
    simp

/-- C7: once the query yields a cursor with available column metadata, `Rows`
returns the empty sequence (not an error) on zero rows, and on `n`
successfully scanned rows returns the `n` decoded maps in row order, each
keyed by exactly the result's column names. -/
theorem rows_empty_or_all (b : Builder) (db : DB) (b1 : Builder)
    (c : Cursor) (cols : List Str)
    (hp : prepared b = .ok b1)
    (hq : db.query b1.sql b1.params = .cursor c) (hc : c.colsRes = .ok cols) :
    (c.rows = [] → (RowsRun db b).result = .ok [])
    ∧ (∀ valss : List (List Val), c.rows = valss.map Except.ok →
        (RowsRun db b).result = .ok (valss.map fun vs => cols.zip vs)
        ∧ (valss.map fun vs => cols.zip vs).length = valss.length
        ∧ ∀ vs ∈ valss, vs.length = cols.length →
            (cols.zip vs).map Prod.fst = cols) := by
  constructor
  · intro hrows
    simp [RowsRun, hp, hq, hc, hrows, scanLoop]
  · intro valss hrows
    refine ⟨?_, List.length_map _ _, fun vs _ hlen => List.map_fst_zip cols vs hlen.ge⟩
    have hloop := scanLoop_all_ok cols valss []
    simp only [List.nil_append] at hloop
    simp [RowsRun, hp, hq, hc, hrows, hloop]

/-- Witness for C7: `SELECT * FROM t` against a zero-row cursor (empty
sequence, no error) and against a two-row cursor (both maps, in order). -/
theorem rows_empty_or_all_holds :
    (prepared selB = .ok selBuilt
      ∧ (dbCursor twoCursor).query selBuilt.sql selBuilt.params = .cursor twoCursor
      ∧ twoCursor.colsRes = .ok ["id".data]
      ∧ twoCursor.rows = ([[Val.vInt 7], [Val.vInt 8]].map Except.ok))
    ∧ (RowsRun (dbCursor zeroCursor) selB).result = .ok []
    ∧ (RowsRun (dbCursor twoCursor) selB).result
        = .ok [[("id".data, Val.vInt 7)], [("id".data, Val.vInt 8)]] :=
  ⟨⟨rfl, rfl, rfl, rfl⟩,
   (rows_empty_or_all selB (dbCursor zeroCursor) selBuilt zeroCursor
     ["id".data] rfl rfl rfl).1 rfl,
   ((rows_empty_or_all selB (dbCursor twoCursor) selBuilt twoCursor
     ["id".data] rfl rfl rfl).2 [[Val.vInt 7], [Val.vInt 8]] rfl).1⟩

end JvQb
